import Mathlib

/-!
Shallow embedding of the field-extraction and validation pipeline of
`src/src/nlp_processor.py` (class `NLPProcessor`), together with proofs about
the claims of the specification.

Modelling conventions:
- Python strings are Lean `String`s; scanning works over `String.data : List Char`.
- Python floats are modelled as exact rationals (`Rat`); the penalty constants
  0.1/0.2/0.3 are the rationals 1/10, 1/5, 3/10.  Binary floating-point rounding
  is abstracted away.
- The regular expressions of `tax_patterns` are compiled by hand into matcher
  functions `List Char → Nat → Nat` returning the length of the match at a
  position (0 = no match; every pattern matches at least one character).
  `re.finditer` semantics (left-to-right scan, non-overlapping matches,
  continue after each match) is `findAll`.
- The optional statistical extractors (spaCy / transformer NER) are modelled in
  their unavailable configuration (`self.nlp = None`, `self.ner_pipeline = None`),
  which the constructor of `NLPProcessor` explicitly supports; only the
  deterministic pattern extractor contributes entities.
- Python's dynamic typing inside `validate_extracted_data` is modelled by the
  `PyVal` type; operations that raise in Python propagate a `PyError` through
  `Except`, and the `try/except` of `validate_extracted_data` is `finalizeValidation`.
-/

/-- Character at index `i` of `t`, with a space (a non-word, non-digit
character) standing for out-of-range access.  All pattern character classes
exclude the space, so content checks are self-guarding, and a space at
`t.length` makes the word-boundary test behave like end-of-string. -/
def charAt (t : List Char) (i : Nat) : Char := (t[i]?).getD ' '

/-- Python's regex word character `\w`, restricted to ASCII: `[A-Za-z0-9_]`. -/
def isWordChar (c : Char) : Bool := c.isAlphanum || c == '_'

/-- Python's `\b`: a word boundary holds at position `p` iff the word-ness of
the character before `p` (non-word at the start) differs from the word-ness of
the character at `p` (non-word at the end). -/
def boundary (t : List Char) (p : Nat) : Bool :=
  (if p = 0 then false else isWordChar (charAt t (p - 1))) != isWordChar (charAt t p)

/-- Length of the maximal run of characters satisfying `pred` starting at `p`. -/
def runLen (pred : Char → Bool) (t : List Char) (p : Nat) : Nat :=
  ((t.drop p).takeWhile pred).length

/-- Matcher for `ssn`: `\b\d{3}-\d{2}-\d{4}\b`.  True iff an 11-character SSN
match starts at `p`. -/
def ssnMatchAt (t : List Char) (p : Nat) : Bool :=
  boundary t p &&
  (charAt t p).isDigit && (charAt t (p+1)).isDigit && (charAt t (p+2)).isDigit &&
  (charAt t (p+3) == '-') &&
  (charAt t (p+4)).isDigit && (charAt t (p+5)).isDigit &&
  (charAt t (p+6) == '-') &&
  (charAt t (p+7)).isDigit && (charAt t (p+8)).isDigit &&
  (charAt t (p+9)).isDigit && (charAt t (p+10)).isDigit &&
  boundary t (p+11)

def ssnLen (t : List Char) (p : Nat) : Nat := if ssnMatchAt t p then 11 else 0

/-- Matcher for `ein`: `\b\d{2}-\d{7}\b` (length 10). -/
def einLen (t : List Char) (p : Nat) : Nat :=
  if boundary t p &&
     (charAt t p).isDigit && (charAt t (p+1)).isDigit &&
     (charAt t (p+2) == '-') &&
     (List.range 7).all (fun i => (charAt t (p+3+i)).isDigit) &&
     boundary t (p+10)
  then 10 else 0

/-- Matcher for `phone`: `\b\d{3}-\d{3}-\d{4}\b` (length 12). -/
def phoneLen (t : List Char) (p : Nat) : Nat :=
  if boundary t p &&
     (List.range 3).all (fun i => (charAt t (p+i)).isDigit) &&
     (charAt t (p+3) == '-') &&
     (List.range 3).all (fun i => (charAt t (p+4+i)).isDigit) &&
     (charAt t (p+7) == '-') &&
     (List.range 4).all (fun i => (charAt t (p+8+i)).isDigit) &&
     boundary t (p+12)
  then 12 else 0

/-- Character class `[A-Za-z0-9._%+-]` (email local part). -/
def localClass (c : Char) : Bool :=
  c.isAlphanum || c == '.' || c == '_' || c == '%' || c == '+' || c == '-'

/-- Character class `[A-Za-z0-9.-]` (email domain part). -/
def domainClass (c : Char) : Bool := c.isAlphanum || c == '.' || c == '-'

/-- Character class `[A-Z|a-z]` of the email pattern; note that the literal
`|` inside the class makes the pipe character a member. -/
def tldClass (c : Char) : Bool := c.isAlpha || c == '|'

/-- Greedy-with-backtracking search for `[A-Z|a-z]{2,}\b` starting at `s`:
the engine first takes the maximal run, then gives characters back until the
trailing word boundary holds; at least 2 characters must remain. -/
def emailTld (t : List Char) (s : Nat) : Option Nat :=
  ((List.range (runLen tldClass t s + 1)).reverse.filter (fun j => 2 ≤ j)).find?
    (fun j => boundary t (s + j))

/-- Matcher for `email`: `\b[A-Za-z0-9._%+-]+@[A-Za-z0-9.-]+\.[A-Z|a-z]{2,}\b`.
The local run is maximal (no backtracking is possible because `@` is outside
the class); the domain split point `k` is searched from longest to shortest,
mirroring the engine's backtracking of `[A-Za-z0-9.-]+` before `\.`. -/
def emailLen (t : List Char) (p : Nat) : Nat :=
  if boundary t p then
    let l := runLen localClass t p
    if l == 0 then 0
    else if charAt t (p + l) == '@' then
      let s := p + l + 1
      let m := runLen domainClass t s
      match ((List.range m).reverse.filter
               (fun k => (1 ≤ k : Bool) && charAt t (s + k) == '.')).findSome?
              (fun k => (emailTld t (s + k + 1)).map (fun j => s + k + 1 + j - p)) with
      | some len => len
      | none => 0
    else 0
  else 0

/-- Matcher for `currency`: `\$[0-9,]+(?:\.\d{2})?`. -/
def currencyLen (t : List Char) (p : Nat) : Nat :=
  if charAt t p == '$' then
    let r := runLen (fun c => c.isDigit || c == ',') t (p+1)
    if r == 0 then 0
    else if charAt t (p+1+r) == '.' && (charAt t (p+2+r)).isDigit &&
            (charAt t (p+3+r)).isDigit
    then 1 + r + 3 else 1 + r
  else 0

/-- Matcher for `percentage`: `\d+(?:\.\d+)?%`. -/
def percentLen (t : List Char) (p : Nat) : Nat :=
  let r1 := runLen Char.isDigit t p
  if r1 == 0 then 0
  else if charAt t (p + r1) == '.' then
    let r2 := runLen Char.isDigit t (p + r1 + 1)
    if (r2 != 0) && charAt t (p + r1 + 1 + r2) == '%' then r1 + 1 + r2 + 1 else 0
  else if charAt t (p + r1) == '%' then r1 + 1 else 0

/-- Separator class `[slash-dash]` of the date pattern. -/
def sepDM (c : Char) : Bool := c == '/' || c == '-'

/-- One backtracking alternative of `\d{1,2}[slash-dash]\d{1,2}[slash-dash]\d{4}` with the
first group taking `a` digits and the second `b`. -/
def dateTry (t : List Char) (p a b : Nat) : Bool :=
  (List.range a).all (fun i => (charAt t (p+i)).isDigit) &&
  sepDM (charAt t (p+a)) &&
  (List.range b).all (fun i => (charAt t (p+a+1+i)).isDigit) &&
  sepDM (charAt t (p+a+1+b)) &&
  (List.range 4).all (fun i => (charAt t (p+a+1+b+1+i)).isDigit)

/-- Matcher for `date`: `\d{1,2}[slash-dash]\d{1,2}[slash-dash]\d{4}`; the greedy engine tries
the alternatives in the order (2,2), (2,1), (1,2), (1,1). -/
def dateLen (t : List Char) (p : Nat) : Nat :=
  if dateTry t p 2 2 then 10
  else if dateTry t p 2 1 then 9
  else if dateTry t p 1 2 then 9
  else if dateTry t p 1 1 then 8
  else 0

/-- Matcher for `zip_code`: `\b\d{5}(?:-\d{4})?\b`; the optional plus-four is
taken greedily and given back when the trailing boundary fails. -/
def zipLen (t : List Char) (p : Nat) : Nat :=
  if boundary t p && (List.range 5).all (fun i => (charAt t (p+i)).isDigit) then
    if charAt t (p+5) == '-' &&
       (List.range 4).all (fun i => (charAt t (p+6+i)).isDigit) &&
       boundary t (p+10)
    then 10
    else if boundary t (p+5) then 5 else 0
  else 0

/-- Fuel-driven left-to-right scan implementing `re.finditer`: at each
position try the matcher; on a match of length `l` record `(p, l)` and resume
at `p + l`, otherwise advance one character.  `t.length + 1` fuel suffices
because the position strictly increases. -/
def findAllAux (m : List Char → Nat → Nat) (t : List Char) : Nat → Nat → List (Nat × Nat)
  | 0, _ => []
  | fuel+1, p =>
    if p < t.length then
      let l := m t p
      if l == 0 then findAllAux m t fuel (p+1)
      else (p, l) :: findAllAux m t fuel (p + l)
    else []

/-- All matches of a matcher over `t`, as `(start, length)` pairs. -/
def findAll (m : List Char → Nat → Nat) (t : List Char) : List (Nat × Nat) :=
  findAllAux m t (t.length + 1) 0

/-- The `tax_patterns` table, in Python dict insertion order. -/
def tax_patterns : List (String × (List Char → Nat → Nat)) :=
  [("ssn", ssnLen), ("ein", einLen), ("phone", phoneLen), ("email", emailLen),
   ("currency", currencyLen), ("percentage", percentLen), ("date", dateLen),
   ("zip_code", zipLen)]

/-- Data class `EntityExtraction`. -/
structure EntityExtraction where
  entity_type : String
  entity_value : String
  confidence : Rat
  start_pos : Int
  end_pos : Int
deriving DecidableEq, Repr

/-- Entities produced by one pattern of the table: every match becomes an
entity with fixed confidence 0.95. -/
def patternEntitiesFor (t : List Char) (ty : String)
    (m : List Char → Nat → Nat) : List EntityExtraction :=
  (findAll m t).map (fun pr =>
    ⟨ty, String.mk ((t.drop pr.1).take pr.2), 95/100, (pr.1 : Int), ((pr.1 + pr.2 : Nat) : Int)⟩)

/-- Application of every pattern of the table, in table order. -/
def patternScan (t : List Char) : List (String × (List Char → Nat → Nat)) → List EntityExtraction
  | [] => []
  | (ty, m) :: rest => patternEntitiesFor t ty m ++ patternScan t rest

/-- Method `_extract_pattern_entities`: regex extraction, no overlap
resolution at this stage. -/
def _extract_pattern_entities (text : String) : List EntityExtraction :=
  patternScan text.data tax_patterns

/-- Stable insertion step for the sort by `start_pos` (ties keep the earlier
element first, as Python's stable `list.sort`). -/
def insertByStart (e : EntityExtraction) : List EntityExtraction → List EntityExtraction
  | [] => [e]
  | x :: xs => if e.start_pos ≤ x.start_pos then e :: x :: xs else x :: insertByStart e xs

/-- Stable sort by `start_pos`, modelling `entities.sort(key=lambda x: x.start_pos)`. -/
def sortByStart : List EntityExtraction → List EntityExtraction
  | [] => []
  | x :: xs => insertByStart x (sortByStart xs)

/-- The sweep of `_merge_overlapping_entities`: for each subsequent entity,
if its span overlaps the current candidate keep the strictly more confident
one (ties keep the current), otherwise emit the candidate and advance. -/
def mergeSweep (current : EntityExtraction) : List EntityExtraction → List EntityExtraction
  | [] => [current]
  | n :: rest =>
    if n.start_pos ≤ current.end_pos ∧ n.end_pos ≥ current.start_pos then
      if n.confidence > current.confidence then mergeSweep n rest
      else mergeSweep current rest
    else current :: mergeSweep n rest

/-- Method `_merge_overlapping_entities`. -/
def _merge_overlapping_entities (entities : List EntityExtraction) : List EntityExtraction :=
  match sortByStart entities with
  | [] => []
  | c :: rest => mergeSweep c rest

/-- Method `extract_entities` in the configuration where the spaCy and
transformer extractors are unavailable (both loaders fell back to `None`):
only pattern entities are produced, then merged; nothing in this path can
raise, so the `except` branch returning `[]` is dead. -/
def extract_entities (text : String) : List EntityExtraction :=
  _merge_overlapping_entities (_extract_pattern_entities text)

/-- Python runtime values flowing through `extracted_data` dictionaries.
Integers and floats are both `num` (exact rationals).  The only Python lists
reaching validation in this pipeline are the `structured_data` groups, which
hold strings; since no list *element* is ever inspected by
`validate_extracted_data` (lists only ever hit truthiness and TypeError
paths), list values are modelled as lists of strings. -/
inductive PyVal where
  | str : String → PyVal
  | num : Rat → PyVal
  | boolean : Bool → PyVal
  | none : PyVal
  | list : List String → PyVal
deriving DecidableEq, Repr

/-- Python truthiness, as used by `not extracted_data[required_field]`. -/
def PyVal.truthy : PyVal → Bool
  | .str s => s != ""
  | .num x => x != 0
  | .boolean b => b
  | .none => false
  | .list l => !l.isEmpty

/-- Python type name used in TypeError messages (ints are abstracted to
floats by this model, so `num` renders as `float`). -/
def PyVal.pyTypeName : PyVal → String
  | .str _ => "str"
  | .num _ => "float"
  | .boolean _ => "bool"
  | .none => "NoneType"
  | .list _ => "list"

/-- An exception escaping to the `except` clause of `validate_extracted_data`. -/
structure PyError where
  msg : String
deriving DecidableEq, Repr

/-- Numeric value of a list of decimal digits. -/
def digitsVal (cs : List Char) : Nat :=
  cs.foldl (fun a c => a * 10 + (c.toNat - 48)) 0

/-- Mantissa part of a Python float literal: `digits`, `digits.digits?` or
`.digits`, with at least one digit overall. -/
def pyFloatMantissa (cs : List Char) : Option Rat :=
  match cs.findIdx? (fun c => c == '.') with
  | Option.none =>
    if cs ≠ [] && cs.all Char.isDigit then some ((digitsVal cs : Int) : Rat) else Option.none
  | some i =>
    let ip := cs.take i
    let fp := cs.drop (i+1)
    if (ip ≠ [] || fp ≠ []) && ip.all Char.isDigit && fp.all Char.isDigit then
      some (((digitsVal ip : Int) : Rat) + ((digitsVal fp : Int) : Rat) / ((10 : Rat) ^ fp.length))
    else Option.none

/-- Model of Python `float(str)`: optional surrounding whitespace, optional
sign, decimal mantissa, optional decimal exponent.  The special literals
`inf`/`infinity`/`nan` are not representable as rationals and yield `none`
(they are never produced by the repository's call sites). -/
def pyFloat (s : String) : Option Rat :=
  let cs := s.trim.data
  let signed : Rat × List Char :=
    match cs with
    | '+' :: r => (1, r)
    | '-' :: r => (-1, r)
    | r => (1, r)
  let body := signed.2
  let expSplit : List Char × Option (List Char) :=
    match body.findIdx? (fun c => c == 'e' || c == 'E') with
    | some i => (body.take i, some (body.drop (i+1)))
    | Option.none => (body, Option.none)
  match pyFloatMantissa expSplit.1 with
  | Option.none => Option.none
  | some m =>
    match expSplit.2 with
    | Option.none => some (signed.1 * m)
    | some ecs =>
      let esigned : Bool × List Char :=
        match ecs with
        | '+' :: r => (false, r)
        | '-' :: r => (true, r)
        | r => (false, r)
      if esigned.2 ≠ [] && esigned.2.all Char.isDigit then
        let e := digitsVal esigned.2
        some (signed.1 * m * (if esigned.1 then 1 / (10 : Rat) ^ e else (10 : Rat) ^ e))
      else Option.none

/-- Exact shape `\d{3}-\d{2}-\d{4}` of a full SSN string. -/
def ssnShape : List Char → Bool
  | [a, b, c, d, e, f, g, h, i, j, k] =>
    a.isDigit && b.isDigit && c.isDigit && d == '-' && e.isDigit && f.isDigit &&
    g == '-' && h.isDigit && i.isDigit && j.isDigit && k.isDigit
  | _ => false

/-- Exact shape `\d{2}-\d{7}` of a full EIN string. -/
def einShape : List Char → Bool
  | [a, b, c, d, e, f, g, h, i, j] =>
    a.isDigit && b.isDigit && c == '-' && d.isDigit && e.isDigit && f.isDigit &&
    g.isDigit && h.isDigit && i.isDigit && j.isDigit
  | _ => false

/-- Model of `re.match(r'^shape$', s)` viewed as a full-string test: the `$`
anchor also matches just before one trailing newline. -/
def reFullMatch (shape : List Char → Bool) (s : String) : Bool :=
  shape s.data || (s.data.getLast? == some '\n' && shape s.data.dropLast)

/-- The `invalid_ssns` placeholder list. -/
def invalid_ssns : List String := ["000-00-0000", "123-45-6789", "111-11-1111"]

/-- Year of `datetime.now()` fixed at the time of this analysis; only the
comparisons `> current_year` / `< 1900` depend on it. -/
def currentYear : Nat := 2026

/-- Days per month, with Gregorian leap years, as validated by `datetime`. -/
def daysInMonth (y m : Nat) : Nat :=
  if m == 2 then (if y % 4 == 0 && (y % 100 != 0 || y % 400 == 0) then 29 else 28)
  else if m == 4 || m == 6 || m == 9 || m == 11 then 30
  else 31

/-- One `datetime.strptime` attempt: three `sep`-separated fields, in
month-day-year order when `mdy` is true and year-month-day order otherwise.
Months and days take one or two digits, the year one to four digits with
year ≥ 1 (`datetime.MINYEAR`); the whole string must be consumed.  Returns
the parsed year. -/
def strptimeTry (s : String) (sep : Char) (mdy : Bool) : Option Nat :=
  match s.data.splitOn sep with
  | [x, y, z] =>
    let fields := if mdy then (x, y, z) else (y, z, x)
    let ms := fields.1
    let ds := fields.2.1
    let ys := fields.2.2
    if ms ≠ [] && ms.length ≤ 2 && ms.all Char.isDigit &&
       ds ≠ [] && ds.length ≤ 2 && ds.all Char.isDigit &&
       ys ≠ [] && ys.length ≤ 4 && ys.all Char.isDigit then
      let m := digitsVal ms
      let d := digitsVal ds
      let yr := digitsVal ys
      if 1 ≤ m && m ≤ 12 && 1 ≤ yr && 1 ≤ d && d ≤ daysInMonth yr m then
        some yr
      else Option.none
    else Option.none
  | _ => Option.none

/-- The date-format list `['%m/%d/%Y', '%m-%d-%Y', '%Y-%m-%d']`, first
successful format wins. -/
def tryParseDate (s : String) : Option Nat :=
  (strptimeTry s '/' true).orElse (fun _ =>
    (strptimeTry s '-' true).orElse (fun _ => strptimeTry s '-' false))

/-- Per-form configuration from `form_field_mappings` (the `optional_fields`
entries are never read by any code path and are omitted). -/
structure FormConfig where
  required_fields : List String
  validation_rules : List (String × Rat × Rat)
deriving DecidableEq

/-- The `form_field_mappings` table: `validation_rules` entries are
`(field, min, max)`, in dict insertion order. -/
def form_field_mappings : List (String × FormConfig) :=
  [("1040", ⟨["name", "ssn", "filing_status", "total_income"],
             [("total_income", 0, 10000000), ("federal_tax_withheld", 0, 5000000)]⟩),
   ("W2", ⟨["employee_name", "employee_ssn", "employer_ein", "wages"],
           [("wages", 0, 5000000), ("federal_tax_withheld", 0, 2000000)]⟩)]

/-- Data class `ValidationResult`. -/
structure ValidationResult where
  is_valid : Bool
  confidence : Rat
  errors : List String
  warnings : List String
deriving DecidableEq, Repr

/-- A single-quoted rendering helper for the f-string messages. -/
def quoted (s : String) : String := "\x27" ++ s ++ "\x27"

/-- Rendering of a Python float in a message (`str(float)`); exact decimal
printing of binary floats is abstracted to printing the rational. -/
def pyNumDisplay (x : Rat) : String :=
  if x.den == 1 then toString x.num ++ ".0" else toString x

/-- Rendering of the integer `min`/`max` bounds in messages. -/
def intDisplay (x : Rat) : String := toString x.num

/-- The required-fields loop of `validate_extracted_data`: a field absent or
falsy appends an error and subtracts 0.2. -/
def requiredStep (data : List (String × PyVal)) :
    List String → List String → Rat → List String × Rat
  | [], es, c => (es, c)
  | f :: rest, es, c =>
    match data.lookup f with
    | Option.none =>
      requiredStep data rest (es ++ ["Required field " ++ quoted f ++ " is missing"]) (c - 1/5)
    | some v =>
      if v.truthy then requiredStep data rest es c
      else requiredStep data rest (es ++ ["Required field " ++ quoted f ++ " is missing"]) (c - 1/5)

/-- Outcome of coercing a field value to a number inside the rules loop. -/
inductive CoerceResult where
  | val : Rat → CoerceResult
  | warn : String → CoerceResult

/-- The numeric-coercion step of the rules loop: strings are cleaned of `$`
and `,` and parsed (a parse failure is the `ValueError` branch: warning and
`continue`); numbers and booleans compare directly; `None` and lists raise a
TypeError at the `value < rules['min']` comparison. -/
def coerceNumeric (field : String) (v : PyVal) : Except PyError CoerceResult :=
  match v with
  | .str s =>
    match pyFloat (String.mk (s.data.filter (fun ch => !(ch == '$' || ch == ',')))) with
    | some x => .ok (.val x)
    | Option.none =>
      .ok (.warn ("Could not validate numeric field " ++ quoted field ++ ": " ++ s))
  | .num x => .ok (.val x)
  | .boolean b => .ok (.val (if b then 1 else 0))
  | other =>
    .error ⟨"\x27<\x27 not supported between instances of " ++
            quoted other.pyTypeName ++ " and \x27int\x27"⟩

/-- The `validation_rules` loop: below-`min` is an error (−0.3), above-`max`
only a warning (−0.1). -/
def applyRules (data : List (String × PyVal)) :
    List (String × Rat × Rat) → List String → List String → Rat →
    Except PyError (List String × List String × Rat)
  | [], es, ws, c => .ok (es, ws, c)
  | (field, mn, mx) :: rest, es, ws, c =>
    match data.lookup field with
    | Option.none => applyRules data rest es ws c
    | some v =>
      match coerceNumeric field v with
      | .error e => .error e
      | .ok (.warn msg) => applyRules data rest es (ws ++ [msg]) (c - 1/10)
      | .ok (.val x) =>
        let es1 := if x < mn then
            es ++ ["Field " ++ quoted field ++ " value " ++ pyNumDisplay x ++
                   " is below minimum " ++ intDisplay mn]
          else es
        let c1 := if x < mn then c - 3/10 else c
        let ws1 := if x > mx then
            ws ++ ["Field " ++ quoted field ++ " value " ++ pyNumDisplay x ++
                   " seems unusually high (max: " ++ intDisplay mx ++ ")"]
          else ws
        let c2 := if x > mx then c1 - 1/10 else c1
        applyRules data rest es1 ws1 c2

/-- The SSN block of `_perform_additional_validations`: `re.match` on a
non-string raises a TypeError that escapes to the caller's `except`. -/
def ssnCheck (data : List (String × PyVal)) (es ws : List String) (c : Rat) :
    Except PyError (List String × List String × Rat) :=
  match data.lookup "ssn" with
  | Option.none => .ok (es, ws, c)
  | some (.str s) =>
    if reFullMatch ssnShape s then
      if invalid_ssns.contains s then
        .ok (es, ws ++ ["SSN appears to be a placeholder: " ++ s], c - 1/5)
      else .ok (es, ws, c)
    else .ok (es ++ ["Invalid SSN format: " ++ s], ws, c - 3/10)
  | some _ => .error ⟨"expected string or bytes-like object"⟩

/-- The EIN block of `_perform_additional_validations`. -/
def einCheck (data : List (String × PyVal)) (es ws : List String) (c : Rat) :
    Except PyError (List String × List String × Rat) :=
  match data.lookup "ein" with
  | Option.none => .ok (es, ws, c)
  | some (.str s) =>
    if reFullMatch einShape s then .ok (es, ws, c)
    else .ok (es ++ ["Invalid EIN format: " ++ s], ws, c - 3/10)
  | some _ => .error ⟨"expected string or bytes-like object"⟩

/-- One date field of `_perform_additional_validations`.  A non-string value
makes `strptime` raise, which the blanket `except Exception: pass` swallows
with no state change; an unparseable string warns (−0.1); a parsed year in
the future or before 1900 warns (−0.1). -/
def dateFieldCheck (data : List (String × PyVal)) (field : String)
    (ws : List String) (c : Rat) : List String × Rat :=
  match data.lookup field with
  | Option.none => (ws, c)
  | some (.str s) =>
    match tryParseDate s with
    | some yr =>
      if yr > currentYear then
        (ws ++ ["Future date in field " ++ quoted field ++ ": " ++ s], c - 1/10)
      else if yr < 1900 then
        (ws ++ ["Very old date in field " ++ quoted field ++ ": " ++ s], c - 1/10)
      else (ws, c)
    | Option.none =>
      (ws ++ ["Could not parse date in field " ++ quoted field ++ ": " ++ s], c - 1/10)
  | some _ => (ws, c)

/-- The `date_fields` loop. -/
def dateChecks (data : List (String × PyVal)) (ws : List String) (c : Rat) :
    List String × Rat :=
  let r1 := dateFieldCheck data "date_of_birth" ws c
  let r2 := dateFieldCheck data "hire_date" r1.1 r1.2
  dateFieldCheck data "termination_date" r2.1 r2.2

/-- Method `_perform_additional_validations`. -/
def _perform_additional_validations (data : List (String × PyVal))
    (es ws : List String) (c : Rat) :
    Except PyError (List String × List String × Rat) :=
  match ssnCheck data es ws c with
  | .error e => .error e
  | .ok (es1, ws1, c1) =>
    match einCheck data es1 ws1 c1 with
    | .error e => .error e
    | .ok (es2, ws2, c2) =>
      let r := dateChecks data ws2 c2
      .ok (es2, r.1, r.2)

/-- The `try` body of `validate_extracted_data`: unknown form types skip all
checks. -/
def validateCore (form_type : String) (data : List (String × PyVal)) :
    Except PyError (List String × List String × Rat) :=
  match form_field_mappings.lookup form_type with
  | Option.none => .ok ([], [], 1)
  | some cfg =>
    let req := requiredStep data cfg.required_fields [] 1
    match applyRules data cfg.validation_rules req.1 [] req.2 with
    | .error e => .error e
    | .ok (es2, ws2, c2) => _perform_additional_validations data es2 ws2 c2

/-- Assembly of the `ValidationResult`: on normal exit `is_valid` is
`errors == []` and confidence is clamped into [0, 1]; a caught exception
yields the fail-soft result with confidence 0. -/
def finalizeValidation : Except PyError (List String × List String × Rat) → ValidationResult
  | .ok (es, ws, c) => ⟨es.isEmpty, max 0 (min 1 c), es, ws⟩
  | .error e => ⟨false, 0, ["Validation error: " ++ e.msg], []⟩

/-- Method `validate_extracted_data`. -/
def validate_extracted_data (form_type : String) (extracted_data : List (String × PyVal)) :
    ValidationResult :=
  finalizeValidation (validateCore form_type extracted_data)

/-- The `form_keywords` table of `classify_form_content`, in dict insertion
order. -/
def form_keywords : List (String × List String) :=
  [("1040", ["individual income tax return", "filing status", "standard deduction",
             "taxable income"]),
   ("W2", ["wage and tax statement", "employer", "employee",
           "federal income tax withheld"]),
   ("1099", ["miscellaneous income", "nonemployee compensation", "payer", "recipient"]),
   ("Schedule C", ["profit or loss", "business income", "business expenses", "net profit"]),
   ("941", ["quarterly return", "employer", "payroll tax", "employment tax"]),
   ("1120", ["corporation income tax", "corporate tax", "c corporation", "net income"])]

/-- Substring containment over character lists (`keyword in text_lower`). -/
def containsSub (hay needle : List Char) : Bool :=
  (List.range (hay.length + 1)).any (fun i => needle.isPrefixOf (hay.drop i))

/-- Method `classify_form_content`: per form type, the count of contained
keyword phrases normalised by the keyword count. -/
def classify_form_content (text : String) : List (String × Rat) :=
  form_keywords.map (fun p =>
    (p.1, ((p.2.countP (fun kw => containsSub text.toLower.data kw.data) : Int) : Rat) /
          ((p.2.length : Int) : Rat)))

/-- One step of Python's `max(scores, key=scores.get)`: the running maximum
is replaced only by a strictly greater score, so the first maximum in
iteration order wins. -/
def selStep (acc : Option (String × Rat)) (p : String × Rat) : Option (String × Rat) :=
  match acc with
  | Option.none => some p
  | some q => if p.2 > q.2 then some p else some q

/-- `max(form_scores, key=form_scores.get)` over the score mapping; `none`
exactly when the mapping is empty. -/
def selectMaxKey (scores : List (String × Rat)) : Option String :=
  (scores.foldl selStep Option.none).map (fun p => p.1)

/-- The classification branch of the orchestrator:
`max(form_scores, key=form_scores.get) if form_scores else 'Unknown'`. -/
def classifyChoice (text : String) : String :=
  match selectMaxKey (classify_form_content text) with
  | some k => k
  | Option.none => "Unknown"

/-- Entry of the `financial_amounts` list of the result envelope. -/
structure FinancialAmount where
  amount : Rat
  formatted_amount : String
  context : String
  position : Nat
deriving DecidableEq, Repr

/-- Thousands grouping of a natural number (fuel-driven, fuel never runs
out for `fuel ≥ n`). -/
def groupAux : Nat → Nat → String
  | 0, n => toString n
  | fuel+1, n =>
    if n < 1000 then toString n
    else groupAux fuel (n / 1000) ++ "," ++
         (let r := n % 1000
          (if r < 10 then "00" else if r < 100 then "0" else "") ++ toString r)

/-- Rendering of `f"${amount:,.2f}"`; amounts produced by the extractor are
exact multiples of 1/100, so decimal rounding is exact (`round` stands in
for the binary-float rounding of the general case). -/
def fmtCurrency (x : Rat) : String :=
  let cents := round (x * 100)
  let a := cents.natAbs
  "$" ++ (if cents < 0 then "-" else "") ++ groupAux (a / 100) (a / 100) ++ "." ++
  (if a % 100 < 10 then "0" else "") ++ toString (a % 100)

/-- Method `extract_financial_amounts`: scan with the currency pattern, strip
commas from group(1), parse, and capture a ±50-character trimmed context. -/
def extract_financial_amounts (text : String) : List FinancialAmount :=
  let t := text.data
  (findAll currencyLen t).filterMap (fun pr =>
    let p := pr.1
    let grp := (t.drop (p+1)).take (pr.2 - 1)
    match pyFloat (String.mk (grp.filter (fun c => !(c == ',')))) with
    | Option.none => Option.none
    | some amount =>
      let s := p - 50
      let e := min t.length (p + pr.2 + 50)
      some ⟨amount, fmtCurrency amount, (String.mk ((t.drop s).take (e - s))).trim, p⟩)

/-- Accumulation of one entity value into the structured-data groups,
preserving first-appearance key order and per-key append order. -/
def addEntityVal : List (String × List String) → String → String → List (String × List String)
  | [], ty, v => [(ty, [v])]
  | (k, vs) :: rest, ty, v =>
    if k == ty then (k, vs ++ [v]) :: rest else (k, vs) :: addEntityVal rest ty v

/-- Grouping of merged entities by `entity_type` (`structured_data`). -/
def buildStructured (es : List EntityExtraction) : List (String × List String) :=
  es.foldl (fun acc e => addEntityVal acc e.entity_type e.entity_value) []

/-- The structured-data dictionary as Python values: each key holds the list
of accumulated entity value strings. -/
def structuredToPy (l : List (String × List String)) : List (String × PyVal) :=
  l.map (fun p => (p.1, PyVal.list p.2))

/-- The result envelope of `process_tax_form_text`.  The
`processing_timestamp` field (a wall-clock ISO string) is not representable
in a pure embedding and is omitted. -/
structure ProcessResult where
  form_type : String
  entities : List EntityExtraction
  structured_data : List (String × PyVal)
  financial_amounts : List FinancialAmount
  validation : ValidationResult
deriving DecidableEq

/-- Method `process_tax_form_text`: the hint parameter models the Python
default `form_type=None`; the classifier runs when the hint is falsy
(`None` or the empty string). -/
def process_tax_form_text (text : String) (form_type : Option String) : ProcessResult :=
  let entities := extract_entities text
  let chosen :=
    match form_type with
    | some s => if s == "" then classifyChoice text else s
    | Option.none => classifyChoice text
  let structured := structuredToPy (buildStructured entities)
  ⟨chosen, entities, structured, extract_financial_amounts text,
   validate_extracted_data chosen structured⟩

/-! ## Helper lemmas about the validator -/

/-- On both exits of `validate_extracted_data` the validity flag agrees with
emptiness of the error list. -/
theorem finalize_valid_iff (r : Except PyError (List String × List String × Rat)) :
    ((finalizeValidation r).is_valid = true) ↔ (finalizeValidation r).errors = [] := by
  rcases r with e | ⟨es, ws, c⟩
  · simp [finalizeValidation]
  · simp [finalizeValidation, List.isEmpty_iff]

/-- On both exits of `validate_extracted_data` the confidence lies in [0, 1]. -/
theorem finalize_conf_bounds (r : Except PyError (List String × List String × Rat)) :
    0 ≤ (finalizeValidation r).confidence ∧ (finalizeValidation r).confidence ≤ 1 := by
  rcases r with e | ⟨es, ws, c⟩
  · norm_num [finalizeValidation]
  · simp only [finalizeValidation]
    exact ⟨le_max_left 0 _, max_le (by norm_num) (min_le_left 1 c)⟩

/-! ## Claims C4, C5, C6, C7, C8 -/

/-- Claim C4: for every form type string and every extracted-data mapping,
`validate_extracted_data` never raises (it is a total function whose `except`
clause catches every internal exception) and the returned `is_valid` is true
if and only if the returned error list is empty. -/
theorem C4_validate_fail_soft (form_type : String) (data : List (String × PyVal)) :
    ((validate_extracted_data form_type data).is_valid = true) ↔
      (validate_extracted_data form_type data).errors = [] :=
  finalize_valid_iff (validateCore form_type data)

/-- Claim C5: validating form type `"1040"` against the empty mapping yields
`is_valid = false`, exactly the four required-field error messages in
configuration order, no warnings, and confidence `max 0 (1 - 4*0.2) = 0.2`. -/
theorem C5_validate_1040_empty :
    validate_extracted_data "1040" [] =
      ⟨false, max 0 (1 - 4 * (1/5)),
       ["Required field \x27name\x27 is missing",
        "Required field \x27ssn\x27 is missing",
        "Required field \x27filing_status\x27 is missing",
        "Required field \x27total_income\x27 is missing"], []⟩ ∧
    max (0 : Rat) (1 - 4 * (1/5)) = 1/5 := by decide!

/-- Claim C6: for every form type other than `"1040"` and `"W2"` the entire
validation body is skipped — including the SSN/EIN/date domain checks — and
the result is always `is_valid = true`, confidence 1, no errors, no warnings,
whatever the data contains. -/
theorem C6_unknown_form_skips_validation (form_type : String)
    (h1040 : form_type ≠ "1040") (hW2 : form_type ≠ "W2")
    (data : List (String × PyVal)) :
    validate_extracted_data form_type data = ⟨true, 1, [], []⟩ := by
  have e1 : (form_type == "1040") = false := beq_eq_false_iff_ne.mpr h1040
  have e2 : (form_type == "W2") = false := beq_eq_false_iff_ne.mpr hW2
  have hcore : validateCore form_type data = .ok ([], [], 1) := by
    simp [validateCore, form_field_mappings, List.lookup, e1, e2]
  rw [validate_extracted_data, hcore]
  norm_num [finalizeValidation]

/-- Witness for C6 at form type `"1099"` with data that would trigger the
placeholder-SSN warning and an EIN format error under a known form type:
every check is skipped. -/
theorem C6_witness :
    validate_extracted_data "1099"
      [("ssn", PyVal.str "123-45-6789"), ("ein", PyVal.str "bad")] =
      ⟨true, 1, [], []⟩ :=
  C6_unknown_form_skips_validation "1099" (by decide) (by decide) _

/-- Claim C7: for every form type and data mapping the returned confidence
satisfies `0 ≤ confidence ≤ 1` (the internal-error path returns 0). -/
theorem C7_confidence_bounds (form_type : String) (data : List (String × PyVal)) :
    0 ≤ (validate_extracted_data form_type data).confidence ∧
      (validate_extracted_data form_type data).confidence ≤ 1 :=
  finalize_conf_bounds (validateCore form_type data)

/-- Claim C8: validating `"1040"` with `ssn = "123-45-6789"` (format-valid
but a listed placeholder) adds exactly one warning — the placeholder warning
— and no SSN-format error (the errors are exactly the three remaining
required-field messages); the second conjunct isolates the deduction of the
placeholder check as exactly 0.2, by comparison with a non-placeholder SSN. -/
theorem C8_placeholder_ssn_warning :
    validate_extracted_data "1040" [("ssn", PyVal.str "123-45-6789")] =
      ⟨false, 1/5,
       ["Required field \x27name\x27 is missing",
        "Required field \x27filing_status\x27 is missing",
        "Required field \x27total_income\x27 is missing"],
       ["SSN appears to be a placeholder: 123-45-6789"]⟩ ∧
    (validate_extracted_data "1040" [("ssn", PyVal.str "123-45-6789")]).confidence =
      (validate_extracted_data "1040" [("ssn", PyVal.str "987-65-4321")]).confidence
        - 1/5 := by decide!

/-! ## Claim C1: the end-to-end sample -/

/-- The end-to-end sample text of the specification. -/
def sampleText1040 : String :=
  "Form 1040\nName: John Doe\nSSN: 123-45-6789\nFiling Status: Single\nTotal Income: $50,000"

/-- Claim C1 is false on the code: the counterexample is the claim's own
input.  The classification and the ssn entry behave as claimed, but the
orchestrator stores list-valued fields in `structured_data`, so the SSN check
of the validator calls `re.match` on a list, the TypeError is caught, and
validation returns `is_valid = false` with confidence 0 — not
`is_valid = true` with confidence above 0.5. -/
theorem C1_counterexample :
    ¬ ((process_tax_form_text sampleText1040 Option.none).form_type = "1040" ∧
       (process_tax_form_text sampleText1040 Option.none).structured_data.lookup "ssn"
         = some (PyVal.list ["123-45-6789"]) ∧
       (process_tax_form_text sampleText1040 Option.none).validation.is_valid = true ∧
       (process_tax_form_text sampleText1040 Option.none).validation.confidence > 1/2) := by
  decide!

/-- Claim C1 amended: on the sample text with no hint the envelope has form
type `"1040"` and an `ssn` entry `["123-45-6789"]`, but its validation result
is the caught-TypeError fail-soft result: `is_valid = false`, confidence 0,
one internal error message, no warnings. -/
theorem C1_amended :
    (process_tax_form_text sampleText1040 Option.none).form_type = "1040" ∧
    (process_tax_form_text sampleText1040 Option.none).structured_data.lookup "ssn"
      = some (PyVal.list ["123-45-6789"]) ∧
    (process_tax_form_text sampleText1040 Option.none).validation =
      ⟨false, 0, ["Validation error: expected string or bytes-like object"], []⟩ := by
  decide!

/-! ## Claim C2: all-zero classification scores -/

/-- Folding the running-maximum step over scores never exceeding the
accumulator keeps the accumulator (Python's `max` replaces only on a strictly
greater key). -/
theorem foldl_selStep_keep (p : String × Rat) :
    ∀ rest : List (String × Rat), (∀ q ∈ rest, ¬ (p.2 < q.2)) →
      List.foldl selStep (some p) rest = some p := by
  intro rest
  induction rest with
  | nil => intro _; rfl
  | cons q rs ih =>
    intro hq
    have hstep : selStep (some p) q = some p := by
      simp only [selStep, gt_iff_lt]
      exact if_neg (hq q (List.mem_cons_self q rs))
    rw [List.foldl_cons, hstep]
    exact ih (fun r hr => hq r (List.mem_cons_of_mem q hr))

/-- Claim C2 is false on the code: the empty text contains no keyword of any
form type, every score is 0, yet the orchestrator selects `"1040"` (the first
key of the score dict), not `"Unknown"`: the `if form_scores else 'Unknown'`
guard tests dict truthiness and the dict always has six entries. -/
theorem C2_counterexample :
    (∀ p ∈ classify_form_content "", p.2 = 0) ∧
    (process_tax_form_text "" Option.none).form_type = "1040" ∧
    (process_tax_form_text "" Option.none).form_type ≠ "Unknown" := by decide!

/-- Claim C2 amended: whenever every classification score is zero, the
orchestrator running without a hint selects `"1040"`, the first form type in
the fixed table order (`"Unknown"` would require the score mapping itself to
be empty, which never happens). -/
theorem C2_amended (text : String)
    (h : ∀ p ∈ classify_form_content text, p.2 = 0) :
    (process_tax_form_text text Option.none).form_type = "1040" := by
  have hform : (process_tax_form_text text Option.none).form_type = classifyChoice text := by
    simp [process_tax_form_text]
  rw [hform]
  cases hcl : classify_form_content text with
  | nil =>
    have hkeys : (classify_form_content text).map Prod.fst =
        ["1040", "W2", "1099", "Schedule C", "941", "1120"] := by
      simp [classify_form_content, form_keywords]
    rw [hcl] at hkeys
    simp at hkeys
  | cons p rest =>
    have hkeys : (classify_form_content text).map Prod.fst =
        ["1040", "W2", "1099", "Schedule C", "941", "1120"] := by
      simp [classify_form_content, form_keywords]
    rw [hcl] at hkeys
    simp only [List.map_cons, List.cons.injEq] at hkeys
    have hp2 : p.2 = 0 := h p (by rw [hcl]; exact List.mem_cons_self p rest)
    have hrest : ∀ q ∈ rest, ¬ (p.2 < q.2) := by
      intro q hq
      have hq2 : q.2 = 0 := h q (by rw [hcl]; exact List.mem_cons_of_mem p hq)
      rw [hq2, hp2]
      exact lt_irrefl 0
    have hfold : List.foldl selStep (some p) rest = some p :=
      foldl_selStep_keep p rest hrest
    simp [classifyChoice, selectMaxKey, hcl, List.foldl_cons, selStep, hfold, hkeys.1]

/-- Witness for the amended C2 at the empty text. -/
theorem C2_amended_witness : (process_tax_form_text "" Option.none).form_type = "1040" :=
  C2_amended "" (by decide!)

/-! ## Claims C3 and C9: the entity merger -/

/-- Membership through the stable insertion step. -/
theorem mem_insertByStart {y e : EntityExtraction} :
    ∀ {l : List EntityExtraction}, y ∈ insertByStart e l ↔ y = e ∨ y ∈ l := by
  intro l
  induction l with
  | nil => simp [insertByStart]
  | cons x xs ih =>
    by_cases hc : e.start_pos ≤ x.start_pos
    · simp only [insertByStart, if_pos hc, List.mem_cons]
    · simp only [insertByStart, if_neg hc, List.mem_cons, ih]
      tauto

/-- Membership through the stable sort. -/
theorem mem_sortByStart {y : EntityExtraction} :
    ∀ {l : List EntityExtraction}, y ∈ sortByStart l ↔ y ∈ l := by
  intro l
  induction l with
  | nil => simp [sortByStart]
  | cons x xs ih =>
    simp [sortByStart, mem_insertByStart, ih]

/-- Insertion preserves the sorted-by-start invariant. -/
theorem pairwise_insertByStart {e : EntityExtraction} :
    ∀ {l : List EntityExtraction},
      List.Pairwise (fun a b => a.start_pos ≤ b.start_pos) l →
      List.Pairwise (fun a b => a.start_pos ≤ b.start_pos) (insertByStart e l) := by
  intro l
  induction l with
  | nil => intro _; simp [insertByStart]
  | cons x xs ih =>
    intro hp
    rcases List.pairwise_cons.mp hp with ⟨hx, hxs⟩
    by_cases hc : e.start_pos ≤ x.start_pos
    · rw [insertByStart, if_pos hc]
      refine List.pairwise_cons.mpr ⟨?_, hp⟩
      intro b hb
      rcases List.mem_cons.mp hb with rfl | hb
      · exact hc
      · exact le_trans hc (hx b hb)
    · rw [insertByStart, if_neg hc]
      refine List.pairwise_cons.mpr ⟨?_, ih hxs⟩
      intro b hb
      rcases mem_insertByStart.mp hb with rfl | hb
      · exact le_of_lt (lt_of_not_le hc)
      · exact hx b hb

/-- The sort really sorts by `start_pos`. -/
theorem pairwise_sortByStart :
    ∀ l : List EntityExtraction,
      List.Pairwise (fun a b => a.start_pos ≤ b.start_pos) (sortByStart l) := by
  intro l
  induction l with
  | nil => simp [sortByStart]
  | cons x xs ih => exact pairwise_insertByStart ih

/-- Core invariant of the sweep: starting from a candidate whose start is a
lower bound of the (sorted) remainder, every emitted entity comes from the
input, starts no earlier than the candidate, and adjacent emitted entities
satisfy `end_pos ≤ start_pos` (in fact strictly `<`). -/
theorem mergeSweep_spec :
    ∀ (rest : List EntityExtraction) (c : EntityExtraction),
      (∀ x ∈ c :: rest, x.start_pos < x.end_pos) →
      (∀ x ∈ rest, c.start_pos ≤ x.start_pos) →
      List.Pairwise (fun a b => a.start_pos ≤ b.start_pos) rest →
      (∀ y ∈ mergeSweep c rest, c.start_pos ≤ y.start_pos ∧ y ∈ c :: rest) ∧
      List.Chain' (fun a b => a.start_pos ≤ b.start_pos ∧ a.end_pos ≤ b.start_pos)
        (mergeSweep c rest) := by
  intro rest
  induction rest with
  | nil =>
    intro c _ _ _
    refine ⟨?_, ?_⟩
    · intro y hy
      rcases List.mem_singleton.mp hy with rfl
      exact ⟨le_refl _, List.mem_cons_self _ _⟩
    · simp [mergeSweep]
  | cons n rs ih =>
    intro c hlt hc hp
    rcases List.pairwise_cons.mp hp with ⟨hn, hrs⟩
    have hcn : c.start_pos ≤ n.start_pos := hc n (List.mem_cons_self n rs)
    have hnlt : n.start_pos < n.end_pos :=
      hlt n (List.mem_cons_of_mem c (List.mem_cons_self n rs))
    by_cases hov : n.start_pos ≤ c.end_pos ∧ n.end_pos ≥ c.start_pos
    · by_cases hconf : n.confidence > c.confidence
      · -- replace the candidate by the more confident overlapping entity
        rw [mergeSweep, if_pos hov, if_pos hconf]
        have hlt' : ∀ x ∈ n :: rs, x.start_pos < x.end_pos :=
          fun x hx => hlt x (List.mem_cons_of_mem c hx)
        obtain ⟨hmem, hch⟩ := ih n hlt' hn hrs
        refine ⟨?_, hch⟩
        intro y hy
        obtain ⟨hy1, hy2⟩ := hmem y hy
        exact ⟨le_trans hcn hy1, List.mem_cons_of_mem c hy2⟩
      · -- keep the current candidate
        rw [mergeSweep, if_pos hov, if_neg hconf]
        have hlt' : ∀ x ∈ c :: rs, x.start_pos < x.end_pos := by
          intro x hx
          rcases List.mem_cons.mp hx with rfl | hx
          · exact hlt x (List.mem_cons_self x (n :: rs))
          · exact hlt x (List.mem_cons_of_mem c (List.mem_cons_of_mem n hx))
        have hc' : ∀ x ∈ rs, c.start_pos ≤ x.start_pos :=
          fun x hx => hc x (List.mem_cons_of_mem n hx)
        obtain ⟨hmem, hch⟩ := ih c hlt' hc' hrs
        refine ⟨?_, hch⟩
        intro y hy
        obtain ⟨hy1, hy2⟩ := hmem y hy
        refine ⟨hy1, ?_⟩
        rcases List.mem_cons.mp hy2 with rfl | hy2
        · exact List.mem_cons_self y (n :: rs)
        · exact List.mem_cons_of_mem c (List.mem_cons_of_mem n hy2)
    · -- no overlap: emit the candidate and advance
      rw [mergeSweep, if_neg hov]
      have hne : c.start_pos ≤ n.end_pos := le_of_lt (lt_of_le_of_lt hcn hnlt)
      have hemit : c.end_pos < n.start_pos := by
        by_contra hcon
        exact hov ⟨le_of_not_lt hcon, hne⟩
      have hlt' : ∀ x ∈ n :: rs, x.start_pos < x.end_pos :=
        fun x hx => hlt x (List.mem_cons_of_mem c hx)
      obtain ⟨hmem, hch⟩ := ih n hlt' hn hrs
      refine ⟨?_, ?_⟩
      · intro y hy
        rcases List.mem_cons.mp hy with rfl | hy
        · exact ⟨le_refl _, List.mem_cons_self _ _⟩
        · obtain ⟨hy1, hy2⟩ := hmem y hy
          exact ⟨le_trans hcn hy1, List.mem_cons_of_mem c hy2⟩
      · refine List.chain'_cons'.mpr ⟨?_, hch⟩
        intro z hz
        have hzmem : z ∈ mergeSweep n rs := List.mem_of_mem_head? hz
        obtain ⟨hz1, _⟩ := hmem z hzmem
        exact ⟨le_trans hcn hz1, le_of_lt (lt_of_lt_of_le hemit hz1)⟩

/-- Claim C3: for every input list of entities with `0 ≤ start_pos < end_pos`,
the merger's output is sorted by ascending `start_pos` and mutually
non-overlapping: every pair (in particular every adjacent pair) satisfies
`end_pos ≤ start_pos` of the later entity. -/
theorem C3_merge_sorted_nonoverlapping (l : List EntityExtraction)
    (h : ∀ e ∈ l, 0 ≤ e.start_pos ∧ e.start_pos < e.end_pos) :
    List.Pairwise (fun a b => a.start_pos ≤ b.start_pos ∧ a.end_pos ≤ b.start_pos)
      (_merge_overlapping_entities l) := by
  cases hsort : sortByStart l with
  | nil => simp [_merge_overlapping_entities, hsort]
  | cons c rest =>
    have hmem : ∀ x ∈ c :: rest, x ∈ l := by
      intro x hx
      exact mem_sortByStart.mp (hsort ▸ hx)
    have hlt : ∀ x ∈ c :: rest, x.start_pos < x.end_pos :=
      fun x hx => (h x (hmem x hx)).2
    have hpw : List.Pairwise (fun a b => a.start_pos ≤ b.start_pos) (c :: rest) :=
      hsort ▸ pairwise_sortByStart l
    rcases List.pairwise_cons.mp hpw with ⟨hc, hrest⟩
    obtain ⟨_, hchain⟩ := mergeSweep_spec rest c hlt hc hrest
    have : _merge_overlapping_entities l = mergeSweep c rest := by
      rw [_merge_overlapping_entities, hsort]
    rw [this]
    haveI : IsTrans EntityExtraction
        (fun a b => a.start_pos ≤ b.start_pos ∧ a.end_pos ≤ b.start_pos) :=
      ⟨fun a b d hab hbd => ⟨le_trans hab.1 hbd.1, le_trans hab.2 hbd.1⟩⟩
    exact List.chain'_iff_pairwise.mp hchain

/-- Witness for C3 at the three-entity example of the repository's test
suite (two overlapping name spans and one disjoint organisation span). -/
theorem C3_witness :
    (∀ e ∈ [(⟨"PERSON", "John", 8/10, 0, 4⟩ : EntityExtraction),
            ⟨"NAME", "John Doe", 9/10, 0, 8⟩, ⟨"ORG", "Company", 7/10, 20, 27⟩],
       0 ≤ e.start_pos ∧ e.start_pos < e.end_pos) ∧
    List.Pairwise (fun a b => a.start_pos ≤ b.start_pos ∧ a.end_pos ≤ b.start_pos)
      (_merge_overlapping_entities
        [⟨"PERSON", "John", 8/10, 0, 4⟩, ⟨"NAME", "John Doe", 9/10, 0, 8⟩,
         ⟨"ORG", "Company", 7/10, 20, 27⟩]) :=
  ⟨by decide, C3_merge_sorted_nonoverlapping _ (by decide)⟩

/-- Claim C9: on two overlapping entities (given in start order) the merger
keeps exactly the strictly more confident one, and keeps the earlier one on a
confidence tie. -/
theorem C9_merge_confidence_preference (a b : EntityExtraction)
    (hs : a.start_pos ≤ b.start_pos) (h1 : b.start_pos ≤ a.end_pos)
    (h2 : b.end_pos ≥ a.start_pos) :
    _merge_overlapping_entities [a, b] =
      if b.confidence > a.confidence then [b] else [a] := by
  have hsort : sortByStart [a, b] = [a, b] := by
    simp [sortByStart, insertByStart, if_pos hs]
  rw [_merge_overlapping_entities, hsort]
  simp only [mergeSweep]
  rw [if_pos ⟨h1, h2⟩]

/-- Witness for C9: overlapping entities with confidences 0.8 and 0.9 — the
merged output retains the 0.9 entity's value. -/
theorem C9_witness :
    _merge_overlapping_entities
      [(⟨"t1", "v1", 8/10, 0, 5⟩ : EntityExtraction), ⟨"t2", "v2", 9/10, 3, 8⟩] =
      [(⟨"t2", "v2", 9/10, 3, 8⟩ : EntityExtraction)] := by
  have h := C9_merge_confidence_preference ⟨"t1", "v1", 8/10, 0, 5⟩ ⟨"t2", "v2", 9/10, 3, 8⟩
    (by decide) (by decide) (by decide)
  have hconf : ((9 : Rat)/10 > 8/10) := by decide!
  rw [h, if_pos hconf]

/-! ## Claim C10: SSN round-trip through pattern extraction -/

/-- The character list of the target SSN string `"123-45-6789"`. -/
def ssnTarget : List Char := ['1', '2', '3', '-', '4', '5', '-', '6', '7', '8', '9']

/-- `pat` occurs in `t` at position `p`, delimited by word boundaries on both
sides. -/
def occursDelimAt (t pat : List Char) (p : Nat) : Bool :=
  decide ((t.drop p).take pat.length = pat) && boundary t p && boundary t (p + pat.length)

/-- Number of word-boundary-delimited occurrences of `pat` in `t` (an
occurrence needs `p + pat.length ≤ t.length`, so positions below `t.length`
are exhaustive for nonempty `pat`). -/
def countDelimOcc (t pat : List Char) : Nat :=
  (List.range t.length).countP (occursDelimAt t pat)

/-- Digits are regex word characters. -/
theorem isWordChar_of_isDigit {c : Char} (h : c.isDigit = true) : isWordChar c = true := by
  simp [isWordChar, Char.isAlphanum, h]

/-- No word boundary separates two adjacent word characters. -/
theorem boundary_eq_false {t : List Char} {i j : Nat} (hij : j = i + 1)
    (h1 : isWordChar (charAt t i) = true) (h2 : isWordChar (charAt t j) = true) :
    boundary t j = false := by
  subst hij
  simp [boundary, h1, h2]

/-- Two SSN matches cannot start within 10 positions of each other: every
candidate start inside a match either begins at a digit preceded by a digit
(no leading boundary) or forces a digit where the pattern requires a dash or
vice versa. -/
theorem ssn_no_overlap {t : List Char} {p : Nat} (d : Nat) (hd1 : 1 ≤ d) (hd2 : d ≤ 10)
    (hp : ssnMatchAt t p = true) (hq : ssnMatchAt t (p + d) = true) : False := by
  simp only [ssnMatchAt, Bool.and_eq_true, beq_iff_eq] at hp hq
  obtain ⟨⟨⟨⟨⟨⟨⟨⟨⟨⟨⟨⟨pb0, pd0⟩, pd1⟩, pd2⟩, ps3⟩, pd4⟩, pd5⟩, ps6⟩, pd7⟩, pd8⟩, pd9⟩, pd10⟩,
    pb11⟩ := hp
  obtain ⟨⟨⟨⟨⟨⟨⟨⟨⟨⟨⟨⟨qb0, qd0⟩, qd1⟩, qd2⟩, qs3⟩, qd4⟩, qd5⟩, qs6⟩, qd7⟩, qd8⟩, qd9⟩, qd10⟩,
    qb11⟩ := hq
  interval_cases d
  · rw [boundary_eq_false rfl (isWordChar_of_isDigit pd0) (isWordChar_of_isDigit qd0)] at qb0
    exact Bool.false_ne_true qb0
  · rw [boundary_eq_false rfl (isWordChar_of_isDigit pd1) (isWordChar_of_isDigit qd0)] at qb0
    exact Bool.false_ne_true qb0
  · rw [boundary_eq_false rfl (isWordChar_of_isDigit pd2) (isWordChar_of_isDigit qd0)] at qb0
    exact Bool.false_ne_true qb0
  · have e : p + 4 + 2 = p + 6 := rfl
    rw [e, ps6] at qd2
    exact absurd qd2 (by decide)
  · rw [boundary_eq_false rfl (isWordChar_of_isDigit pd4) (isWordChar_of_isDigit qd0)] at qb0
    exact Bool.false_ne_true qb0
  · rw [boundary_eq_false rfl (isWordChar_of_isDigit pd5) (isWordChar_of_isDigit qd0)] at qb0
    exact Bool.false_ne_true qb0
  · have e : p + 7 + 3 = p + 10 := rfl
    rw [e] at qs3
    rw [qs3] at pd10
    exact absurd pd10 (by decide)
  · rw [boundary_eq_false rfl (isWordChar_of_isDigit pd7) (isWordChar_of_isDigit qd0)] at qb0
    exact Bool.false_ne_true qb0
  · rw [boundary_eq_false rfl (isWordChar_of_isDigit pd8) (isWordChar_of_isDigit qd0)] at qb0
    exact Bool.false_ne_true qb0
  · rw [boundary_eq_false rfl (isWordChar_of_isDigit pd9) (isWordChar_of_isDigit qd0)] at qb0
    exact Bool.false_ne_true qb0

/-- Filtering a position range by a predicate that is false on a leading gap
equals filtering the range starting after the gap. -/
theorem filter_gap (P : Nat → Bool) (len : Nat) :
    ∀ n a : Nat, (∀ q, a ≤ q → q < a + n → P q = false) →
      (List.range' a (len - a)).filter P = (List.range' (a + n) (len - (a + n))).filter P := by
  intro n
  induction n with
  | zero => intro a _; simp
  | succ m ih =>
    intro a hno
    by_cases ha : a < len
    · have hlen : len - a = (len - (a + 1)) + 1 := by omega
      rw [hlen, List.range'_succ]
      have hPa : P a = false := hno a (Nat.le_refl a) (by omega)
      rw [List.filter_cons, if_neg (by simp [hPa])]
      have hstep := ih (a + 1) (fun q h1 h2 => hno q (by omega) (by omega))
      rw [hstep]
      have e : a + 1 + m = a + (m + 1) := by omega
      rw [e]
    · have h1 : len - a = 0 := by omega
      have h2 : len - (a + (m + 1)) = 0 := by omega
      rw [h1, h2]
      rfl

/-- Characterisation of the finditer scan for the SSN matcher: starting at
`s` with enough fuel, the scan reports exactly the match positions at or
after `s`, each with length 11.  The key step uses `ssn_no_overlap`: after a
match at `s` no further match can start before `s + 11`, so jumping by the
match length loses nothing. -/
theorem findAllAux_ssn (t : List Char) :
    ∀ fuel s : Nat, t.length ≤ s + fuel →
      findAllAux ssnLen t fuel s =
        ((List.range' s (t.length - s)).filter (fun q => ssnMatchAt t q)).map
          (fun q => (q, 11)) := by
  intro fuel
  induction fuel with
  | zero =>
    intro s hs
    have h0 : t.length - s = 0 := by omega
    rw [h0]
    rfl
  | succ m ih =>
    intro s hs
    by_cases hlt : s < t.length
    · by_cases hm : ssnMatchAt t s = true
      · have hstep : findAllAux ssnLen t (m + 1) s = (s, 11) :: findAllAux ssnLen t m (s + 11) := by
          simp [findAllAux, hlt, ssnLen, hm]
        rw [hstep, ih (s + 11) (by omega)]
        have hsplit : t.length - s = (t.length - (s + 1)) + 1 := by omega
        rw [hsplit, List.range'_succ, List.filter_cons, if_pos (by simp [hm])]
        rw [List.map_cons]
        have hgap : ∀ q, s + 1 ≤ q → q < s + 1 + 10 → ssnMatchAt t q = false := by
          intro q h1 h2
          by_contra hcon
          have hq : ssnMatchAt t q = true := by
            revert hcon
            cases ssnMatchAt t q <;> simp
          have he : q = s + (q - s) := by omega
          rw [he] at hq
          exact ssn_no_overlap (q - s) (by omega) (by omega) hm hq
        rw [filter_gap (fun q => ssnMatchAt t q) t.length 10 (s + 1) hgap]
      · have hmf : ssnMatchAt t s = false := by
          revert hm
          cases ssnMatchAt t s <;> simp
        have hstep : findAllAux ssnLen t (m + 1) s = findAllAux ssnLen t m (s + 1) := by
          simp [findAllAux, hlt, ssnLen, hmf]
        rw [hstep, ih (s + 1) (by omega)]
        have hsplit : t.length - s = (t.length - (s + 1)) + 1 := by omega
        rw [hsplit, List.range'_succ, List.filter_cons, if_neg (by simp [hmf])]
    · have h0 : t.length - s = 0 := by omega
      rw [h0]
      simp [findAllAux, hlt]

/-- The finditer scan over the SSN pattern reports exactly the match
positions. -/
theorem findAll_ssn (t : List Char) :
    findAll ssnLen t =
      ((List.range' 0 t.length).filter (fun q => ssnMatchAt t q)).map (fun q => (q, 11)) := by
  have h := findAllAux_ssn t (t.length + 1) 0 (by omega)
  simpa [findAll] using h

/-- Characters of a matched window, read back through `charAt`. -/
theorem charAt_of_window {t w : List Char} {p : Nat}
    (hw : (t.drop p).take 11 = w) (i : Nat) (hi : i < 11) :
    charAt t (p + i) = charAt w i := by
  rw [charAt, charAt, ← hw, List.getElem?_take_of_lt hi, List.getElem?_drop]

/-- A window equal to the target SSN string together with boundaries on both
sides yields an SSN match. -/
theorem ssnMatchAt_of_window {t : List Char} {p : Nat}
    (hw : (t.drop p).take 11 = ssnTarget)
    (hb0 : boundary t p = true) (hb11 : boundary t (p + 11) = true) :
    ssnMatchAt t p = true := by
  have h0 : charAt t (p + 0) = '1' := by rw [charAt_of_window hw 0 (by omega)]; rfl
  have h1 : charAt t (p + 1) = '2' := by rw [charAt_of_window hw 1 (by omega)]; rfl
  have h2 : charAt t (p + 2) = '3' := by rw [charAt_of_window hw 2 (by omega)]; rfl
  have h3 : charAt t (p + 3) = '-' := by rw [charAt_of_window hw 3 (by omega)]; rfl
  have h4 : charAt t (p + 4) = '4' := by rw [charAt_of_window hw 4 (by omega)]; rfl
  have h5 : charAt t (p + 5) = '5' := by rw [charAt_of_window hw 5 (by omega)]; rfl
  have h6 : charAt t (p + 6) = '-' := by rw [charAt_of_window hw 6 (by omega)]; rfl
  have h7 : charAt t (p + 7) = '6' := by rw [charAt_of_window hw 7 (by omega)]; rfl
  have h8 : charAt t (p + 8) = '7' := by rw [charAt_of_window hw 8 (by omega)]; rfl
  have h9 : charAt t (p + 9) = '8' := by rw [charAt_of_window hw 9 (by omega)]; rfl
  have h10 : charAt t (p + 10) = '9' := by rw [charAt_of_window hw 10 (by omega)]; rfl
  have h0' : charAt t p = '1' := by simpa using h0
  unfold ssnMatchAt
  rw [h0', h1, h2, h3, h4, h5, h6, h7, h8, h9, h10, hb0, hb11]
  decide

/-- An SSN match has word boundaries on both sides. -/
theorem ssnMatchAt_boundaries {t : List Char} {p : Nat} (h : ssnMatchAt t p = true) :
    boundary t p = true ∧ boundary t (p + 11) = true := by
  simp only [ssnMatchAt, Bool.and_eq_true] at h
  obtain ⟨⟨⟨⟨⟨⟨⟨⟨⟨⟨⟨⟨hb0, -⟩, -⟩, -⟩, -⟩, -⟩, -⟩, -⟩, -⟩, -⟩, -⟩, -⟩, hb11⟩ := h
  exact ⟨hb0, hb11⟩

/-- The ssn segment of pattern extraction produces exactly one target-valued
entity per word-delimited occurrence of the target string. -/
theorem ssn_count_eq (t : List Char) :
    (patternEntitiesFor t "ssn" ssnLen).countP
      (fun e => e.entity_type == "ssn" && e.entity_value == "123-45-6789") =
    countDelimOcc t ssnTarget := by
  rw [patternEntitiesFor, findAll_ssn, List.map_map, List.countP_map, List.countP_filter]
  rw [countDelimOcc, List.range_eq_range']
  apply List.countP_congr
  intro q _
  simp only [Function.comp_apply, Bool.and_eq_true, beq_iff_eq, occursDelimAt,
    decide_eq_true_eq]
  constructor
  · rintro ⟨⟨-, hval⟩, hM⟩
    have hw : (t.drop q).take 11 = ssnTarget := by
      rw [show ssnTarget = ("123-45-6789" : String).data from rfl]
      exact congrArg String.data hval
    obtain ⟨hb0, hb11⟩ := ssnMatchAt_boundaries hM
    exact ⟨⟨hw, hb0⟩, hb11⟩
  · rintro ⟨⟨hw, hb0⟩, hb11⟩
    have hw' : (t.drop q).take 11 = ssnTarget := hw
    refine ⟨⟨trivial, ?_⟩, ssnMatchAt_of_window hw' hb0 hb11⟩
    rw [hw']
    rfl

/-- Claim C10 is false on the code as stated: the text
`"123-45-6789 987-65-4321"` contains `"123-45-6789"` exactly once, delimited
by word boundaries, yet pattern extraction yields two entities of type
`"ssn"` (one per SSN-shaped substring), not exactly one. -/
theorem C10_counterexample :
    countDelimOcc ("123-45-6789 987-65-4321" : String).data ssnTarget = 1 ∧
    ((_extract_pattern_entities "123-45-6789 987-65-4321").filter
        (fun e => e.entity_type == "ssn")).length = 2 := by decide!

/-- Claim C10 amended: for every text in which `"123-45-6789"` occurs exactly
once delimited by word boundaries, pattern extraction yields exactly one
entity whose type is `"ssn"` *and* whose value is `"123-45-6789"` (further
ssn entities with other values, and other-typed entities overlapping the
substring, may also be present). -/
theorem C10_amended (text : String)
    (h : countDelimOcc text.data ssnTarget = 1) :
    (_extract_pattern_entities text).countP
      (fun e => e.entity_type == "ssn" && e.entity_value == "123-45-6789") = 1 := by
  rw [_extract_pattern_entities]
  have z : ∀ (ty : String) (m : List Char → Nat → Nat), (ty == "ssn") = false →
      (patternEntitiesFor text.data ty m).countP
        (fun e => e.entity_type == "ssn" && e.entity_value == "123-45-6789") = 0 := by
    intro ty m hty
    apply List.countP_eq_zero.mpr
    intro e he
    rcases List.mem_map.mp he with ⟨pr, -, rfl⟩
    simp [hty]
  simp only [tax_patterns, patternScan, List.countP_append]
  rw [ssn_count_eq, z "ein" einLen (by decide), z "phone" phoneLen (by decide),
      z "email" emailLen (by decide), z "currency" currencyLen (by decide),
      z "percentage" percentLen (by decide), z "date" dateLen (by decide),
      z "zip_code" zipLen (by decide)]
  simp [h]

/-- Witness for the amended C10 at a small concrete text. -/
theorem C10_witness :
    (_extract_pattern_entities "SSN: 123-45-6789").countP
      (fun e => e.entity_type == "ssn" && e.entity_value == "123-45-6789") = 1 :=
  C10_amended "SSN: 123-45-6789" (by decide!)
